import Mathlib

/-!
# Log-Analyzer: a shallow embedding of `log_analyzer.c`

Modelling conventions.

* A C string (`char *`) is the list of its characters before the terminating
  NUL (`CStr`).  A buffer filled by `fgets` is a list of raw characters that may
  contain NUL bytes; `cstr` gives the C string such a buffer holds.
* The C globals (`patterns`, `pattern_count`, `total_logs`, `error_log_file`)
  and the standard streams form the explicit `State`; each `printf`/`fprintf`/
  `perror` call appends one record to the corresponding stream.
* `int` counters are mathematical integers: signed overflow (undefined
  behaviour in C) is outside the model.
* The file system is a parameter (`FS`).  An automatic `struct stat` variable
  that is read without having been written is a parameter too (`stale`).
* `while (fgets(...))` loops carry explicit fuel; `none` means the fuel ran out.
-/

namespace LogAnalyzer

/-- C string: the characters before the terminating NUL. -/
abbrev CStr := List Char

def MAX_LOG_LEN : Nat := 2048
def MAX_PATTERNS : Nat := 10
def MAX_EXTENSIONS : Nat := 5
/-- Value of `PATH_MAX` in `<limits.h>` on Linux. -/
def PATH_MAX : Nat := 4096

/-- The NUL byte. -/
def NUL : Char := Char.ofNat 0
/-- The line feed character. -/
def NL : Char := Char.ofNat 10
/-- The carriage return character. -/
def CR : Char := Char.ofNat 13

/-- The string literal `"ERROR"`. -/
def ERROR : CStr := "ERROR".toList
/-- The string literal `"WARN"`. -/
def WARN : CStr := "WARN".toList
/-- The string literal `"CRITICAL"`. -/
def CRITICAL : CStr := "CRITICAL".toList

/-- Entry of the global array `patterns`; `pattern = none` is the NULL pointer. -/
structure LogPattern where
  pattern : Option CStr
  occurrences : Int
deriving DecidableEq

/-- Program state: the globals of `log_analyzer.c` and the three output streams. -/
structure State where
  patterns : List LogPattern
  pattern_count : Nat
  total_logs : Int
  out : List CStr
  err : List CStr
  error_log : List CStr
deriving DecidableEq

/-- The environment: what the system calls used by the program answer. -/
structure FS where
  /-- Result of `fopen(path, "r")`: the bytes of the file, or failure. -/
  fopen_r : CStr → Option (List Char)
  /-- Result of `stat(path, &buf)`: the `st_mode` written to the buffer, or failure
  (the buffer is then left as it was). -/
  stat : CStr → Option Nat
  /-- Result of `opendir`/`readdir`: the `d_name` sequence, or failure. -/
  opendir : CStr → Option (List CStr)
  /-- Whether `fopen("error_log.txt", "w")` succeeds. -/
  fopen_w : Bool
  /-- Value `inotify_init` returns: a descriptor, or a negative number on failure. -/
  inotify_init : Int
  /-- Whether `inotify_add_watch` on the path succeeds. -/
  add_watch : CStr → Bool

/-- Globals at program start: zero-initialised array, counters at zero. -/
def startup : State :=
  { patterns := List.replicate MAX_PATTERNS ⟨none, 0⟩
    pattern_count := 0
    total_logs := 0
    out := []
    err := []
    error_log := [] }

/-- Loop `for (i = 0; i < pattern_count; i++) patterns[i].occurrences = 0;`. -/
def zero_occurrences (ps : List LogPattern) : Nat → Nat → List LogPattern
  | 0, _ => ps
  | n + 1, i =>
    match ps.get? i with
    | some p => zero_occurrences (ps.set i { p with occurrences := 0 }) n (i + 1)
    | none => zero_occurrences ps n (i + 1)

/-- Assignment `patterns[i].pattern = text`. -/
def set_pattern (ps : List LogPattern) (i : Nat) (text : CStr) : List LogPattern :=
  match ps.get? i with
  | some p => ps.set i { p with pattern := some text }
  | none => ps

def initialize_patterns (s : State) : State :=
  let ps0 := set_pattern s.patterns 0 ERROR
  let ps1 := set_pattern ps0 1 WARN
  let ps2 := set_pattern ps1 2 CRITICAL
  { s with patterns := zero_occurrences ps2 3 0, pattern_count := 3 }

/-- Library `strstr`: the suffix of the haystack starting at the first occurrence
of the needle, `none` for the NULL result. -/
def strstr : CStr → CStr → Option CStr
  | [], needle => if needle.isEmpty then some [] else none
  | c :: h, needle =>
    if needle.isPrefixOf (c :: h) then some (c :: h) else strstr h needle

/-- The C string held by a buffer: its content up to the first NUL byte. -/
def cstr (buf : List Char) : CStr := buf.takeWhile (fun c => c != NUL)

/-- Characters `fgets` stores when it may store at most `k` more, and the rest
of the stream: it stops after a line feed, at end of file, or when full. -/
def fgets_aux : Nat → List Char → List Char × List Char
  | 0, stream => ([], stream)
  | _ + 1, [] => ([], [])
  | k + 1, c :: stream =>
    if c = NL then ([c], stream)
    else ((c :: (fgets_aux k stream).1), (fgets_aux k stream).2)

/-- Library `fgets(buf, n, stream)`: `none` is the NULL result at end of file. -/
def fgets (n : Nat) (stream : List Char) : Option (List Char × List Char) :=
  match stream with
  | [] => none
  | _ :: _ => some (fgets_aux (n - 1) stream)

/-- The loop `while (fgets(buf, sizeof(buf), log_file)) { body }` of `read_logs`
and of `monitor_log_file`, with `sizeof(buf) = MAX_LOG_LEN`. -/
def fgets_loop (body : List Char → State → State) : Nat → List Char → State → Option State
  | 0, _, _ => none
  | fuel + 1, stream, s =>
    match fgets MAX_LOG_LEN stream with
    | none => some s
    | some (buf, rest) => fgets_loop body fuel rest (body buf s)

/-- Text produced by the format `"Error found in %s: %s"`. -/
def fmt_error_found (path line : CStr) : CStr :=
  "Error found in ".toList ++ path ++ ": ".toList ++ line

/-- One iteration of `for (i = 0; i < pattern_count; i++)` in `read_logs`. -/
def check_pattern (path line : CStr) (s : State) (i : Nat) : State :=
  match s.patterns.get? i with
  | some ⟨some pat, occ⟩ =>
    if (strstr line pat).isSome then
      { s with
        patterns := s.patterns.set i ⟨some pat, occ + 1⟩
        out := s.out ++ [fmt_error_found path line]
        error_log := s.error_log ++ [fmt_error_found path line] }
    else s
  | _ => s

/-- Body of the `fgets` loop of `read_logs` (the Line Matcher). -/
def process_line (path : CStr) (buf : List Char) (s : State) : State :=
  (List.range s.pattern_count).foldl (check_pattern path (cstr buf))
    { s with total_logs := s.total_logs + 1 }

def read_logs (fs : FS) (log_file_path : CStr) (s : State) : Option State :=
  match fs.fopen_r log_file_path with
  | none => some { s with err := s.err ++ ["Failed to open log file".toList] }
  | some content =>
    fgets_loop (process_line log_file_path) (content.length + 1) content s

/-- Helper `check_for_error_patterns`: whether any of the three texts occurs. -/
def check_for_error_patterns (line : CStr) : Bool :=
  (strstr line ERROR).isSome ||
  (strstr line WARN).isSome ||
  (strstr line CRITICAL).isSome

/-- Library `strcspn`: length of the initial segment free of the rejected characters. -/
def strcspn (s reject : CStr) : Nat :=
  (s.takeWhile (fun c => !reject.contains c)).length

/-- Text produced by the format `"New error detected in %s: %s\n"`. -/
def fmt_new_error (path line : CStr) : CStr :=
  "New error detected in ".toList ++ path ++ ": ".toList ++ line ++ [NL]

/-- The C string left in `buffer` by `buffer[strcspn(buffer, "\r\n")] = 0`. -/
def strip_newline (buf : List Char) : CStr :=
  (cstr buf).take (strcspn (cstr buf) [CR, NL])

/-- Body of the `fgets` loop of `monitor_log_file`. -/
def monitor_line (path : CStr) (buf : List Char) (s : State) : State :=
  if check_for_error_patterns (strip_newline buf) then
    { s with out := s.out ++ [fmt_new_error path (strip_newline buf)] }
  else s

def monitor_log_file (fs : FS) (_inotify_fd : Int) (log_file_path : CStr) (s : State) :
    Option State :=
  match fs.fopen_r log_file_path with
  | none => some { s with err := s.err ++ ["Failed to open log file".toList] }
  | some content =>
    fgets_loop (monitor_line log_file_path) (content.length + 1) content s

/-- File type mask and type bits of `st_mode` from `<sys/stat.h>` (Linux values). -/
def S_IFMT : Nat := 0o170000
def S_IFDIR : Nat := 0o040000
def S_IFREG : Nat := 0o100000

def S_ISREG (m : Nat) : Bool := (m &&& S_IFMT) == S_IFREG
def S_ISDIR (m : Nat) : Bool := (m &&& S_IFMT) == S_IFDIR

/-- The `st_mode` field of a `struct stat` variable after `stat(path, &buf)` whose
result is not checked: `stale` is what the variable held before the call. -/
def stat_unchecked (fs : FS) (stale : Nat) (path : CStr) : Nat :=
  match fs.stat path with
  | some m => m
  | none => stale

/-- Function `is_regular_file`; `stale` is the indeterminate content of the
automatic variable `path_stat` on entry. -/
def is_regular_file (fs : FS) (stale : Nat) (path : CStr) : Int :=
  if S_ISREG (stat_unchecked fs stale path) then 1 else 0

def valid_extensions : List CStr :=
  [".log".toList, ".txt".toList, ".conf".toList, ".csv".toList, ".md".toList]

/-- Loop of `has_valid_extension` over the remaining table entries. -/
def has_valid_extension_from (filename : CStr) : List CStr → Int
  | [] => 0
  | ext :: rest =>
    if (strstr filename ext).isSome then 1 else has_valid_extension_from filename rest

def has_valid_extension (filename : CStr) : Int :=
  has_valid_extension_from filename (valid_extensions.take MAX_EXTENSIONS)

/-- Content of `full_path` after `snprintf(full_path, PATH_MAX, "%s/%s", dir, name)`. -/
def snprintf_path (dir_path d_name : CStr) : CStr :=
  (dir_path ++ "/".toList ++ d_name).take (PATH_MAX - 1)

/-- The test `is_regular_file(full_path) && has_valid_extension(dir->d_name)`. -/
def eligible (fs : FS) (stale : Nat) (full_path d_name : CStr) : Bool :=
  is_regular_file fs stale full_path != 0 && has_valid_extension d_name != 0

/-- Body of the `readdir` loop of `scan_directory_and_process_logs`. -/
def scan_entry (fs : FS) (stale : CStr → Nat) (dir_path d_name : CStr) (s : State) :
    Option State :=
  if d_name = ".".toList ∨ d_name = "..".toList then some s
  else if eligible fs (stale (snprintf_path dir_path d_name))
      (snprintf_path dir_path d_name) d_name then
    read_logs fs (snprintf_path dir_path d_name)
      { s with out := s.out ++
          ["Processing log file: ".toList ++ snprintf_path dir_path d_name ++ [NL]] }
  else some s

/-- The `readdir` loop of `scan_directory_and_process_logs`. -/
def scan_entries (fs : FS) (stale : CStr → Nat) (dir_path : CStr) :
    List CStr → State → Option State
  | [], s => some s
  | d_name :: rest, s =>
    match scan_entry fs stale dir_path d_name s with
    | none => none
    | some s1 => scan_entries fs stale dir_path rest s1

/-- Function `scan_directory_and_process_logs`; `stale` gives, for each path, the
indeterminate content of `path_stat` when `is_regular_file` is entered for it. -/
def scan_directory_and_process_logs (fs : FS) (stale : CStr → Nat) (dir_path : CStr)
    (s : State) : Option State :=
  match fs.opendir dir_path with
  | none => some { s with err := s.err ++ ["Unable to open directory".toList] }
  | some names => scan_entries fs stale dir_path names s

/-- Body of the first `readdir` loop of `monitor_directory` (watch registration). -/
def watch_entry (fs : FS) (stale : CStr → Nat) (dir_path d_name : CStr) (s : State) : State :=
  if d_name = ".".toList ∨ d_name = "..".toList then s
  else if eligible fs (stale (snprintf_path dir_path d_name))
      (snprintf_path dir_path d_name) d_name then
    if fs.add_watch (snprintf_path dir_path d_name) then
      { s with out := s.out ++
          ["Monitoring file: ".toList ++ snprintf_path dir_path d_name ++ [NL]] }
    else { s with err := s.err ++ ["Failed to add inotify watch".toList] }
  else s

/-- An inotify event: its `mask` and `name` fields. -/
structure Event where
  mask : Nat
  name : CStr

/-- Event bit `IN_MODIFY` from `<sys/inotify.h>`. -/
def IN_MODIFY : Nat := 2

/-- Body of the inner event loop of `monitor_directory`. -/
def handle_event (fs : FS) (inotify_fd : Int) (dir_path : CStr) (ev : Event) (s : State) :
    Option State :=
  if ev.mask &&& IN_MODIFY ≠ 0 then
    monitor_log_file fs inotify_fd (snprintf_path dir_path ev.name) s
  else some s

/-- The inner loop over the events returned by one `read`. -/
def handle_events (fs : FS) (inotify_fd : Int) (dir_path : CStr) :
    List Event → State → Option State
  | [], s => some s
  | ev :: rest, s =>
    match handle_event fs inotify_fd dir_path ev s with
    | none => none
    | some s1 => handle_events fs inotify_fd dir_path rest s1

/-- The `while (1)` loop of `monitor_directory`: `reads` lists the event batches
the successful `read` calls deliver; the `read` after the last one fails. -/
def monitor_loop (fs : FS) (inotify_fd : Int) (dir_path : CStr) :
    List (List Event) → State → Option State
  | [], s => some { s with err := s.err ++ ["Failed to read inotify events".toList] }
  | batch :: rest, s =>
    match handle_events fs inotify_fd dir_path batch s with
    | none => none
    | some s1 => monitor_loop fs inotify_fd dir_path rest s1

def monitor_directory (fs : FS) (stale : CStr → Nat) (reads : List (List Event))
    (dir_path : CStr) (s : State) : Option State :=
  if fs.inotify_init < 0 then
    some { s with err := s.err ++ ["Failed to initialize inotify".toList] }
  else
    match fs.opendir dir_path with
    | none => some { s with err := s.err ++ ["Unable to open directory".toList] }
    | some names =>
      monitor_loop fs fs.inotify_init dir_path reads
        (names.foldl (fun st d_name => watch_entry fs stale dir_path d_name st) s)

/-- Text produced by the conversion `%d`. -/
def fmt_d : Int → CStr
  | Int.ofNat n => Nat.toDigits 10 n
  | Int.negSucc n => [Char.ofNat 45] ++ Nat.toDigits 10 (n + 1)

/-- Text produced by `printf("%s: %d occurrences\n", patterns[i].pattern,
patterns[i].occurrences)`; a NULL pattern prints as glibc prints it. -/
def fmt_occurrences (ps : List LogPattern) (i : Nat) : CStr :=
  match ps.get? i with
  | some ⟨some pat, occ⟩ => pat ++ ": ".toList ++ fmt_d occ ++ " occurrences\n".toList
  | some ⟨none, occ⟩ => "(null): ".toList ++ fmt_d occ ++ " occurrences\n".toList
  | none => []

def display_statistics (s : State) : State :=
  { s with out := s.out ++
      ["\n===== Log Statistics =====\n".toList] ++
      ["Total logs processed: ".toList ++ fmt_d s.total_logs ++ [NL]] ++
      (List.range s.pattern_count).map (fmt_occurrences s.patterns) ++
      ["==========================\n".toList] }

/-- Argument loop of `main`: the flag `monitor_mode` and the pointer `log_path`. -/
def parse_args : List CStr → Bool × Option CStr → Bool × Option CStr
  | [], r => r
  | a :: rest, r =>
    if a = "--monitor".toList then parse_args rest (true, r.2)
    else parse_args rest (r.1, some a)

/-- Function `main` run on the start-up globals: exit status and final state.
`stale_main` is the indeterminate content of the variable `path_stat` of `main`. -/
def main (fs : FS) (stale_main : Nat) (stale : CStr → Nat) (reads : List (List Event))
    (argv : List CStr) : Option (Int × State) :=
  if argv.length < 2 then
    some (1, { startup with out := ["Usage: ".toList ++ argv.headD [] ++
      " [--monitor] <log_file_or_directory>\n".toList] })
  else
    match parse_args argv.tail (false, none) with
    | (_, none) =>
      some (1, { startup with out := ["No log file or directory specified.\n".toList] })
    | (monitor_mode, some log_path) =>
      let s0 := initialize_patterns startup
      if fs.fopen_w then
        let r :=
          if S_ISDIR (stat_unchecked fs stale_main log_path) then
            if monitor_mode then
              monitor_directory fs stale reads log_path
                { s0 with out := s0.out ++
                    ["Real-time monitoring enabled for directory ".toList ++ log_path ++ [NL]] }
            else scan_directory_and_process_logs fs stale log_path s0
          else
            if monitor_mode then
              monitor_log_file fs 0 log_path
                { s0 with out := s0.out ++
                    ["Real-time monitoring enabled for file ".toList ++ log_path ++ [NL]] }
            else read_logs fs log_path s0
        r.map (fun s => (0, display_statistics s))
      else
        some (1, { s0 with err := s0.err ++ ["Failed to open error log file".toList] })

/-! ### Specification-side notions -/

/-- The lines of a text: maximal pieces ending in a line feed, the last one
possibly unterminated; each line keeps its line feed. -/
def split_lines : List Char → List (List Char)
  | [] => []
  | c :: cs =>
    if c = NL then [c] :: split_lines cs
    else
      match split_lines cs with
      | [] => [[c]]
      | l :: ls => (c :: l) :: ls

/-- The pattern array as `initialize_patterns` lays it out, with the given
counters; `rest` are the unused entries. -/
def registry (e w c : Int) (rest : List LogPattern) : List LogPattern :=
  ⟨some ERROR, e⟩ :: ⟨some WARN, w⟩ :: ⟨some CRITICAL, c⟩ :: rest

/-- One if the text occurs in the line as a contiguous substring, else zero. -/
def hit (pat line : CStr) : Nat := if pat <:+: line then 1 else 0

/-- Number of registry patterns that occur in the line. -/
def hits (line : CStr) : Nat :=
  hit ERROR line + hit WARN line + hit CRITICAL line

/-- Records one line adds to the sink: one per pattern that occurs in it. -/
def records (path : CStr) (buf : List Char) : List CStr :=
  List.replicate (hits (cstr buf)) (fmt_error_found path (cstr buf))

/-- Number of lines whose C string contains the text. -/
def count_lines (pat : CStr) (lines : List (List Char)) : Nat :=
  lines.countP (fun l => decide (pat <:+: cstr l))

/-- The unused entries of the zero-initialised array `patterns`. -/
def unused : List LogPattern := List.replicate 7 ⟨none, 0⟩

/-- Example text: the three lines of `app.log`. -/
def app_log : List Char := "INFO start\nERROR disk full\nWARN low memory\n".toList

/-- Example environment: a directory `logs` holding the regular file `app.log`.
Opening the directory path `logs/` itself for reading succeeds and yields no data
(every read of a directory fails). -/
def exFS : FS :=
  { fopen_r := fun p =>
      if p = "logs/app.log".toList ∨ p = "app.log".toList then some app_log
      else if p = "logs/".toList then some []
      else none
    stat := fun p =>
      if p = "logs".toList then some 0o040755
      else if p = "logs/app.log".toList ∨ p = "app.log".toList then some 0o100644
      else none
    opendir := fun p =>
      if p = "logs".toList then some [".".toList, "..".toList, "app.log".toList] else none
    fopen_w := true
    inotify_init := 3
    add_watch := fun _ => true }

/-- The successive buffer contents the loop `while (fgets(buf, sizeof(buf), f))`
hands to its body, for the given fuel. -/
def chunks : Nat → List Char → List (List Char)
  | 0, _ => []
  | fuel + 1, stream =>
    match fgets MAX_LOG_LEN stream with
    | none => []
    | some (buf, rest) => buf :: chunks fuel rest

/-- State after the loop body has run on each buffer of the list in turn. -/
def run_body (body : List Char → State → State) (bufs : List (List Char)) (s : State) : State :=
  bufs.foldl (fun st buf => body buf st) s

/-- What the body of the loop of `monitor_log_file` prints for one buffer. -/
def alert (path : CStr) (buf : List Char) : List CStr :=
  if check_for_error_patterns (strip_newline buf) then
    [fmt_new_error path (strip_newline buf)]
  else []

/-- Everything one call of `monitor_log_file` prints on standard output. -/
def monitor_output (fs : FS) (path : CStr) : List CStr :=
  match fs.fopen_r path with
  | none => []
  | some content => (chunks (content.length + 1) content).flatMap (alert path)

/-- Everything one call of `monitor_log_file` or `read_logs` reports through `perror`. -/
def open_errors (fs : FS) (path : CStr) : List CStr :=
  match fs.fopen_r path with
  | none => ["Failed to open log file".toList]
  | some _ => []

/-- The block `display_statistics` prints for the registry with the given counters. -/
def statistics_block (e w c t : Int) : List CStr :=
  ["\n===== Log Statistics =====\n".toList,
   "Total logs processed: ".toList ++ fmt_d t ++ "\n".toList,
   "ERROR: ".toList ++ fmt_d e ++ " occurrences\n".toList,
   "WARN: ".toList ++ fmt_d w ++ " occurrences\n".toList,
   "CRITICAL: ".toList ++ fmt_d c ++ " occurrences\n".toList,
   "==========================\n".toList]

/-- States reachable from the state `initialize_patterns` produces at start-up by
calls of `read_logs`, `scan_directory_and_process_logs` and `monitor_log_file`, each
in an arbitrary environment. -/
inductive Reachable : State → Prop
  | init : Reachable (initialize_patterns startup)
  | step_read_logs (fs : FS) (path : CStr) (s t : State) :
      Reachable s → read_logs fs path s = some t → Reachable t
  | step_scan (fs : FS) (stale : CStr → Nat) (dir : CStr) (s t : State) :
      Reachable s → scan_directory_and_process_logs fs stale dir s = some t → Reachable t
  | step_monitor (fs : FS) (fd : Int) (path : CStr) (s t : State) :
      Reachable s → monitor_log_file fs fd path s = some t → Reachable t

/-- The registry is in place and every counter lies between zero and `total_logs`. -/
def Bounded (s : State) : Prop :=
  ∃ e w c rest, s.patterns = registry e w c rest ∧ s.pattern_count = 3 ∧
    0 ≤ e ∧ e ≤ s.total_logs ∧ 0 ≤ w ∧ w ≤ s.total_logs ∧ 0 ≤ c ∧ c ≤ s.total_logs

/-- The two records the scan of `app.log` writes. -/
def app_log_records : List CStr :=
  ["Error found in app.log: ERROR disk full\n".toList,
   "Error found in app.log: WARN low memory\n".toList]

/-- Example text: a single line of 2052 characters, 2047 letters `a` followed by
`ERROR`, and its line feed. -/
def long_log : List Char := List.replicate 2047 'a' ++ "ERROR\n".toList

/-- Example environment: the file `long.log` holds `long_log`. -/
def longFS : FS :=
  { fopen_r := fun p => if p = "long.log".toList then some long_log else none
    stat := fun p => if p = "long.log".toList then some 0o100644 else none
    opendir := fun _ => none
    fopen_w := true
    inotify_init := 3
    add_watch := fun _ => true }

/-- Example environment: the regular file `image.png`, also found in the directory
`media` next to a subdirectory named `sub.log`. -/
def pngFS : FS :=
  { fopen_r := fun p =>
      if p = "image.png".toList ∨ p = "media/image.png".toList then
        some "ERROR in chunk IDAT\n".toList
      else none
    stat := fun p =>
      if p = "image.png".toList ∨ p = "media/image.png".toList then some 0o100644
      else if p = "media".toList ∨ p = "media/sub.log".toList then some 0o040755
      else none
    opendir := fun p =>
      if p = "media".toList then
        some [".".toList, "..".toList, "image.png".toList, "sub.log".toList]
      else if p = "media/sub.log".toList then some [".".toList, "..".toList]
      else none
    fopen_w := true
    inotify_init := 3
    add_watch := fun _ => true }

/-- Example environment: the directory `logs` lists `ghost.log`, a dangling symbolic
link, so that `stat` and `fopen` fail for `logs/ghost.log`. -/
def ghostFS : FS :=
  { fopen_r := fun _ => none
    stat := fun p => if p = "logs".toList then some 0o040755 else none
    opendir := fun p =>
      if p = "logs".toList then some [".".toList, "..".toList, "ghost.log".toList] else none
    fopen_w := true
    inotify_init := 3
    add_watch := fun _ => true }

end LogAnalyzer

open LogAnalyzer

theorem strstr_isSome_iff (h n : CStr) : (strstr h n).isSome = true ↔ n <:+: h := by
  induction h with
  | nil =>
    unfold strstr
    cases n <;> simp
  | cons c h ih =>
    unfold strstr
    by_cases hp : n.isPrefixOf (c :: h) = true
    · simp only [hp, if_true, Option.isSome_some, true_iff]
      exact (List.isPrefixOf_iff_prefix.mp hp).isInfix
    · simp only [hp, if_false, ih]
      rw [List.infix_cons_iff]
      have : ¬ n <+: c :: h := fun hh => hp (List.isPrefixOf_iff_prefix.mpr hh)
      simp only [this, false_or]
      exact ih

theorem process_line_registry (path : CStr) (buf : List Char) (e w c t : Int)
    (rest : List LogPattern) (out err log : List CStr) :
    process_line path buf ⟨registry e w c rest, 3, t, out, err, log⟩ =
      ⟨registry (e + hit ERROR (cstr buf)) (w + hit WARN (cstr buf))
          (c + hit CRITICAL (cstr buf)) rest,
        3, t + 1, out ++ records path buf, err, log ++ records path buf⟩ := by
  have hr : List.range 3 = [0, 1, 2] := rfl
  simp only [process_line, hr, List.foldl, check_pattern, registry, records, hits, hit]
  by_cases h1 : ERROR <:+: cstr buf <;>
  by_cases h2 : WARN <:+: cstr buf <;>
  by_cases h3 : CRITICAL <:+: cstr buf <;>
  simp [strstr_isSome_iff, h1, h2, h3, List.replicate]

/-! ### The `fgets` primitive -/

theorem fgets_aux_append (k : Nat) (stream : List Char) :
    (fgets_aux k stream).1 ++ (fgets_aux k stream).2 = stream := by
  induction stream generalizing k with
  | nil => cases k <;> simp [fgets_aux]
  | cons c cs ih =>
    cases k with
    | zero => simp [fgets_aux]
    | succ k =>
      unfold fgets_aux
      by_cases hc : c = NL
      · simp [hc]
      · simp [hc, ih k]

theorem fgets_aux_length_le (k : Nat) (stream : List Char) :
    (fgets_aux k stream).1.length ≤ k := by
  induction stream generalizing k with
  | nil => cases k <;> simp [fgets_aux]
  | cons c cs ih =>
    cases k with
    | zero => simp [fgets_aux]
    | succ k =>
      unfold fgets_aux
      by_cases hc : c = NL
      · simp [hc]
      · simp [hc, ih k]

theorem fgets_aux_pos (k : Nat) (c : Char) (cs : List Char) :
    0 < (fgets_aux (k + 1) (c :: cs)).1.length := by
  unfold fgets_aux
  by_cases hc : c = NL <;> simp [hc]

/-- A line feed can only be the last character of a buffer. -/
theorem fgets_aux_nl (k : Nat) (stream : List Char) :
    NL ∉ (fgets_aux k stream).1.dropLast := by
  induction stream generalizing k with
  | nil => cases k <;> simp [fgets_aux]
  | cons c cs ih =>
    cases k with
    | zero => simp [fgets_aux]
    | succ k =>
      unfold fgets_aux
      by_cases hc : c = NL
      · simp [hc]
      · simp only [hc, if_false]
        cases hq : (fgets_aux k cs).1 with
        | nil => simp
        | cons d ds =>
          have := ih k
          rw [hq] at this
          rw [List.dropLast_cons₂]
          simp only [List.mem_cons, not_or]
          exact ⟨fun h => hc h.symm, this⟩

/-- A buffer that is followed by more input is full or ends in a line feed. -/
theorem fgets_aux_full (k : Nat) (stream : List Char) (h : (fgets_aux k stream).2 ≠ []) :
    (fgets_aux k stream).1.length = k ∨ (fgets_aux k stream).1.getLast? = some NL := by
  induction stream generalizing k with
  | nil => cases k <;> simp [fgets_aux] at h
  | cons c cs ih =>
    cases k with
    | zero => simp [fgets_aux]
    | succ k =>
      unfold fgets_aux at h ⊢
      by_cases hc : c = NL
      · simp [hc]
      · simp only [hc, if_false] at h ⊢
        rcases ih k h with h1 | h1
        · left; simp [h1]
        · right
          cases hq : (fgets_aux k cs).1 with
          | nil => rw [hq] at h1; simp at h1
          | cons d ds => rw [hq] at h1; rw [List.getLast?_cons_cons]; exact h1

/-- When the first line of a non-empty text fits, `fgets` returns exactly it. -/
theorem fgets_aux_line (stream : List Char) (hne : stream ≠ []) :
    ∃ l ls, split_lines stream = l :: ls ∧ 0 < l.length ∧
      ∀ k, l.length ≤ k →
        (fgets_aux k stream).1 = l ∧ split_lines (fgets_aux k stream).2 = ls := by
  induction stream with
  | nil => exact absurd rfl hne
  | cons c cs ih =>
    by_cases hc : c = NL
    · refine ⟨[c], split_lines cs, by simp [split_lines, hc], by simp, ?_⟩
      intro k hk
      cases k with
      | zero => simp at hk
      | succ k => simp [fgets_aux, hc]
    · cases cs with
      | nil =>
        refine ⟨[c], [], by simp [split_lines, hc], by simp, ?_⟩
        intro k hk
        cases k with
        | zero => simp at hk
        | succ k => cases k <;> simp [fgets_aux, hc, split_lines]
      | cons d ds =>
        obtain ⟨l, ls, hl, hpos, hk⟩ := ih (by simp)
        refine ⟨c :: l, ls, ?_, by simp, ?_⟩
        · rw [split_lines]; simp only [hc, if_false, hl]
        · intro k hle
          cases k with
          | zero => simp at hle
          | succ k =>
            have := hk k (by simpa using hle)
            rw [fgets_aux]
            simp only [hc, if_false, this.1, this.2, and_self]

/-! ### The read loop -/

theorem fgets_cons (c : Char) (cs : List Char) :
    fgets MAX_LOG_LEN (c :: cs) =
      some ((fgets_aux 2047 (c :: cs)).1, (fgets_aux 2047 (c :: cs)).2) := rfl

theorem fgets_rest_length (c : Char) (cs : List Char) :
    (fgets_aux 2047 (c :: cs)).2.length < (c :: cs).length := by
  have h1 := congrArg List.length (fgets_aux_append 2047 (c :: cs))
  have h2 : 0 < (fgets_aux 2047 (c :: cs)).1.length := fgets_aux_pos 2046 c cs
  rw [List.length_append] at h1
  omega

/-- With fuel beyond the length of the input the loop ends at end of file, having
run its body on each buffer in turn. -/
theorem fgets_loop_eq (body : List Char → State → State) (fuel : Nat) (stream : List Char)
    (s : State) (h : stream.length < fuel) :
    fgets_loop body fuel stream s = some (run_body body (chunks fuel stream) s) := by
  induction fuel generalizing stream s with
  | zero => omega
  | succ fuel ih =>
    cases stream with
    | nil => simp [fgets_loop, chunks, fgets, run_body]
    | cons c cs =>
      have hr := fgets_rest_length c cs
      simp only [fgets_loop, chunks, fgets_cons, run_body, List.foldl]
      rw [ih _ _ (by simp only [List.length_cons] at h hr; omega)]
      rfl

theorem chunks_flatten (fuel : Nat) (stream : List Char) (h : stream.length < fuel) :
    (chunks fuel stream).flatten = stream := by
  induction fuel generalizing stream with
  | zero => omega
  | succ fuel ih =>
    cases stream with
    | nil => simp [chunks, fgets]
    | cons c cs =>
      have hr := fgets_rest_length c cs
      simp only [chunks, fgets_cons, List.flatten_cons]
      rw [ih _ (by simp only [List.length_cons] at h hr; omega)]
      exact fgets_aux_append 2047 (c :: cs)

theorem chunks_bounds (fuel : Nat) (stream : List Char) :
    ∀ b ∈ chunks fuel stream, 0 < b.length ∧ b.length ≤ 2047 ∧ NL ∉ b.dropLast := by
  induction fuel generalizing stream with
  | zero => simp [chunks]
  | succ fuel ih =>
    cases stream with
    | nil => simp [chunks, fgets]
    | cons c cs =>
      simp only [chunks, fgets_cons, List.mem_cons]
      rintro b (rfl | hb)
      · exact ⟨fgets_aux_pos 2046 c cs, fgets_aux_length_le 2047 _, fgets_aux_nl 2047 _⟩
      · exact ih _ b hb

theorem chunks_nil (fuel : Nat) : chunks fuel [] = [] := by
  cases fuel <;> simp [chunks, fgets]

theorem chunks_full (fuel : Nat) (stream : List Char) :
    ∀ b ∈ (chunks fuel stream).dropLast, b.length = 2047 ∨ b.getLast? = some NL := by
  induction fuel generalizing stream with
  | zero => simp [chunks]
  | succ fuel ih =>
    cases stream with
    | nil => simp [chunks, fgets]
    | cons c cs =>
      simp only [chunks, fgets_cons]
      cases hq : chunks fuel (fgets_aux 2047 (c :: cs)).2 with
      | nil => simp
      | cons d ds =>
        rw [List.dropLast_cons₂, ← hq]
        intro b hb
        rcases List.mem_cons.mp hb with rfl | hb
        · apply fgets_aux_full
          intro h0
          rw [h0, chunks_nil] at hq
          exact absurd hq (by simp)
        · exact ih _ b hb

/-- On a text whose lines all fit the buffer the loop sees exactly the lines. -/
theorem chunks_eq_split_lines (fuel : Nat) (stream : List Char) (h : stream.length < fuel)
    (hfit : ∀ l ∈ split_lines stream, l.length ≤ 2047) :
    chunks fuel stream = split_lines stream := by
  induction fuel generalizing stream with
  | zero => omega
  | succ fuel ih =>
    cases stream with
    | nil => simp [chunks, fgets, split_lines]
    | cons c cs =>
      have hr := fgets_rest_length c cs
      obtain ⟨l, ls, hl, _, hk⟩ := fgets_aux_line (c :: cs) (by simp)
      rw [hl] at hfit
      have h1 := hk 2047 (hfit l (by simp))
      simp only [chunks, fgets_cons]
      rw [hl, ih _ (by simp only [List.length_cons] at h hr; omega)
        (by rw [h1.2]; intro x hx; exact hfit x (by simp [hx])), h1.1, h1.2]

/-! ### The Line Matcher on the registry -/

theorem count_lines_cons (pat : CStr) (b : List Char) (bs : List (List Char)) :
    count_lines pat (b :: bs) = hit pat (cstr b) + count_lines pat bs := by
  simp only [count_lines, List.countP_cons, hit, decide_eq_true_eq]
  omega

theorem records_length (path : CStr) (buf : List Char) :
    (records path buf).length = hits (cstr buf) := by
  simp [records]

theorem run_process_registry (path : CStr) (bufs : List (List Char)) (e w c t : Int)
    (rest : List LogPattern) (out err log : List CStr) :
    run_body (process_line path) bufs ⟨registry e w c rest, 3, t, out, err, log⟩ =
      ⟨registry (e + count_lines ERROR bufs) (w + count_lines WARN bufs)
          (c + count_lines CRITICAL bufs) rest,
        3, t + bufs.length, out ++ bufs.flatMap (records path), err,
        log ++ bufs.flatMap (records path)⟩ := by
  induction bufs generalizing e w c t out log with
  | nil => simp [run_body, count_lines]
  | cons b bs ih =>
    have hE := count_lines_cons ERROR b bs
    have hW := count_lines_cons WARN b bs
    have hC := count_lines_cons CRITICAL b bs
    have hstep : run_body (process_line path) (b :: bs) ⟨registry e w c rest, 3, t, out, err, log⟩
        = run_body (process_line path) bs
            (process_line path b ⟨registry e w c rest, 3, t, out, err, log⟩) := rfl
    rw [hstep, process_line_registry, ih, hE, hW, hC]
    simp only [List.length_cons, Nat.cast_add, Nat.cast_one, List.flatMap_cons,
      List.append_assoc, add_assoc]
    congr 2
    omega

theorem flatMap_records_length (path : CStr) (bufs : List (List Char)) :
    (bufs.flatMap (records path)).length =
      count_lines ERROR bufs + count_lines WARN bufs + count_lines CRITICAL bufs := by
  induction bufs with
  | nil => simp [count_lines]
  | cons b bs ih =>
    simp only [List.flatMap_cons, List.length_append, ih, records_length, hits,
      count_lines_cons]
    omega

/-! ### Text files -/

theorem split_lines_flatten (text : List Char) : (split_lines text).flatten = text := by
  induction text with
  | nil => simp [split_lines]
  | cons c cs ih =>
    rw [split_lines]
    by_cases hc : c = NL
    · simp [hc, ih]
    · simp only [hc, if_false]
      cases hq : split_lines cs with
      | nil => rw [hq] at ih; simp at ih; simp [ih]
      | cons l ls => rw [hq] at ih; simp at ih; simp [ih]

theorem cstr_eq_self (l : List Char) (h : NUL ∉ l) : cstr l = l := by
  unfold cstr
  rw [List.takeWhile_eq_self_iff]
  intro x hx
  simp only [bne_iff_ne, ne_eq]
  rintro rfl
  exact h hx

theorem count_lines_text (pat : CStr) (text : List Char) (h : NUL ∉ text) :
    count_lines pat (split_lines text) =
      (split_lines text).countP (fun l => decide (pat <:+: l)) := by
  unfold count_lines
  apply List.countP_congr
  intro l hl
  have : NUL ∉ l := fun hn =>
    h (by rw [← split_lines_flatten text]; exact List.mem_flatten.mpr ⟨l, hl, hn⟩)
  rw [cstr_eq_self l this]

theorem initialize_patterns_startup :
    initialize_patterns startup = ⟨registry 0 0 0 unused, 3, 0, [], [], []⟩ := by
  decide

/-! ### Effects of the loop bodies on an arbitrary state -/

theorem check_pattern_frame (path line : CStr) (s : State) (i : Nat) :
    (check_pattern path line s i).total_logs = s.total_logs ∧
      (check_pattern path line s i).pattern_count = s.pattern_count ∧
      (check_pattern path line s i).err = s.err := by
  unfold check_pattern
  split
  · split <;> exact ⟨rfl, rfl, rfl⟩
  · exact ⟨rfl, rfl, rfl⟩

theorem foldl_check_pattern_frame (path line : CStr) (is : List Nat) (s : State) :
    (is.foldl (check_pattern path line) s).total_logs = s.total_logs ∧
      (is.foldl (check_pattern path line) s).pattern_count = s.pattern_count ∧
      (is.foldl (check_pattern path line) s).err = s.err := by
  induction is generalizing s with
  | nil => exact ⟨rfl, rfl, rfl⟩
  | cons i is ih =>
    have h1 := check_pattern_frame path line s i
    have h2 := ih (check_pattern path line s i)
    simp only [List.foldl]
    exact ⟨h2.1.trans h1.1, h2.2.1.trans h1.2.1, h2.2.2.trans h1.2.2⟩

/-- In any state the Line Matcher adds exactly one to `total_logs`. -/
theorem process_line_total_logs (path : CStr) (buf : List Char) (s : State) :
    (process_line path buf s).total_logs = s.total_logs + 1 :=
  (foldl_check_pattern_frame path (cstr buf) _ _).1

theorem run_process_total_logs (path : CStr) (bufs : List (List Char)) (s : State) :
    (run_body (process_line path) bufs s).total_logs = s.total_logs + bufs.length := by
  induction bufs generalizing s with
  | nil => simp [run_body]
  | cons b bs ih =>
    have hstep : run_body (process_line path) (b :: bs) s =
        run_body (process_line path) bs (process_line path b s) := rfl
    rw [hstep, ih, process_line_total_logs]
    simp only [List.length_cons, Nat.cast_add, Nat.cast_one]
    omega

theorem monitor_line_eq (path : CStr) (buf : List Char) (s : State) :
    monitor_line path buf s = { s with out := s.out ++ alert path buf } := by
  unfold monitor_line alert
  split <;> simp

theorem run_monitor_eq (path : CStr) (bufs : List (List Char)) (s : State) :
    run_body (monitor_line path) bufs s =
      { s with out := s.out ++ bufs.flatMap (alert path) } := by
  induction bufs generalizing s with
  | nil => simp [run_body]
  | cons b bs ih =>
    have hstep : run_body (monitor_line path) (b :: bs) s =
        run_body (monitor_line path) bs (monitor_line path b s) := rfl
    rw [hstep, ih, monitor_line_eq]
    simp

/-- Function `monitor_log_file` returns, and only standard output and standard
error grow. -/
theorem monitor_log_file_eq (fs : FS) (fd : Int) (path : CStr) (s : State) :
    monitor_log_file fs fd path s =
      some { s with out := s.out ++ monitor_output fs path,
                    err := s.err ++ open_errors fs path } := by
  unfold monitor_log_file monitor_output open_errors
  cases h : fs.fopen_r path with
  | none => simp
  | some content =>
    simp only []
    rw [fgets_loop_eq _ _ _ _ (Nat.lt_succ_self _), run_monitor_eq]
    simp

theorem chunks_eq_nil_iff (content : List Char) :
    chunks (content.length + 1) content = [] ↔ content = [] := by
  cases content with
  | nil => simp [chunks, fgets]
  | cons c cs => simp [chunks, fgets_cons]

/-- Function `read_logs` returns: the fuel it is given is enough. -/
theorem read_logs_eq (fs : FS) (path : CStr) (s : State) :
    read_logs fs path s =
      some (match fs.fopen_r path with
        | none => { s with err := s.err ++ ["Failed to open log file".toList] }
        | some content =>
          run_body (process_line path) (chunks (content.length + 1) content) s) := by
  unfold read_logs
  cases h : fs.fopen_r path with
  | none => rfl
  | some content =>
    simp only []
    rw [fgets_loop_eq _ _ _ _ (Nat.lt_succ_self _)]

/-! ### The counter invariant -/

theorem hit_le_one (pat line : CStr) : hit pat line ≤ 1 := by
  unfold hit
  split <;> simp

theorem bounded_process_line (path : CStr) (buf : List Char) (s : State) (h : Bounded s) :
    Bounded (process_line path buf s) := by
  obtain ⟨e, w, c, rest, hp, hc, he0, he, hw0, hw, hc0, hcc⟩ := h
  obtain ⟨ps, pc, t, out, err, log⟩ := s
  simp only at hp hc he hw hcc
  subst hp hc
  rw [process_line_registry]
  have h1 := hit_le_one ERROR (cstr buf)
  have h2 := hit_le_one WARN (cstr buf)
  have h3 := hit_le_one CRITICAL (cstr buf)
  exact ⟨_, _, _, rest, rfl, rfl, by omega, by simp only []; omega, by omega,
    by simp only []; omega, by omega, by simp only []; omega⟩

theorem bounded_run_process (path : CStr) (bufs : List (List Char)) (s : State)
    (h : Bounded s) : Bounded (run_body (process_line path) bufs s) := by
  induction bufs generalizing s with
  | nil => exact h
  | cons b bs ih => exact ih _ (bounded_process_line path b s h)

theorem bounded_read_logs (fs : FS) (path : CStr) (s : State) (t : State) (h : Bounded s)
    (ht : read_logs fs path s = some t) : Bounded t := by
  rw [read_logs_eq] at ht
  cases hf : fs.fopen_r path with
  | none =>
    rw [hf] at ht
    simp only [Option.some.injEq] at ht
    subst ht
    exact h
  | some content =>
    rw [hf] at ht
    simp only [Option.some.injEq] at ht
    subst ht
    exact bounded_run_process path _ s h

theorem bounded_scan_entry (fs : FS) (stale : CStr → Nat) (dir n : CStr) (s t : State)
    (h : Bounded s) (ht : scan_entry fs stale dir n s = some t) : Bounded t := by
  unfold scan_entry at ht
  split at ht
  · simp only [Option.some.injEq] at ht; subst ht; exact h
  · split at ht
    · refine bounded_read_logs fs _ { s with out := _ } t ?_ ht
      exact h
    · simp only [Option.some.injEq] at ht; subst ht; exact h

theorem bounded_scan_entries (fs : FS) (stale : CStr → Nat) (dir : CStr) (names : List CStr)
    (s t : State) (h : Bounded s) (ht : scan_entries fs stale dir names s = some t) :
    Bounded t := by
  induction names generalizing s with
  | nil =>
    simp only [scan_entries, Option.some.injEq] at ht
    subst ht; exact h
  | cons n ns ih =>
    simp only [scan_entries] at ht
    cases hq : scan_entry fs stale dir n s with
    | none => rw [hq] at ht; simp at ht
    | some s1 =>
      rw [hq] at ht
      exact ih s1 (bounded_scan_entry fs stale dir n s s1 h hq) ht

theorem bounded_scan_directory (fs : FS) (stale : CStr → Nat) (dir : CStr) (s t : State)
    (h : Bounded s) (ht : scan_directory_and_process_logs fs stale dir s = some t) :
    Bounded t := by
  unfold scan_directory_and_process_logs at ht
  cases hq : fs.opendir dir with
  | none =>
    rw [hq] at ht
    simp only [Option.some.injEq] at ht
    subst ht; exact h
  | some names =>
    rw [hq] at ht
    exact bounded_scan_entries fs stale dir names s t h ht

theorem bounded_monitor (fs : FS) (fd : Int) (path : CStr) (s t : State) (h : Bounded s)
    (ht : monitor_log_file fs fd path s = some t) : Bounded t := by
  rw [monitor_log_file_eq] at ht
  simp only [Option.some.injEq] at ht
  subst ht
  exact h

theorem bounded_of_reachable (s : State) (h : Reachable s) : Bounded s := by
  induction h with
  | init =>
    rw [initialize_patterns_startup]
    exact ⟨0, 0, 0, unused, rfl, rfl, by simp⟩
  | step_read_logs fs path s t _ ht ih => exact bounded_read_logs fs path s t ih ht
  | step_scan fs stale dir s t _ ht ih => exact bounded_scan_directory fs stale dir s t ih ht
  | step_monitor fs fd path s t _ ht ih => exact bounded_monitor fs fd path s t ih ht

/-! ### An over-long line -/

theorem fgets_aux_replicate (k : Nat) (a : Char) (rest : List Char) (ha : a ≠ NL) :
    fgets_aux k (List.replicate k a ++ rest) = (List.replicate k a, rest) := by
  induction k with
  | zero => simp [fgets_aux]
  | succ k ih =>
    rw [List.replicate_succ, List.cons_append, fgets_aux]
    simp only [ha, if_false, ih]

theorem split_lines_replicate (n : Nat) (a : Char) (tail : List Char) (ha : a ≠ NL)
    (ht : split_lines tail = [tail]) :
    split_lines (List.replicate n a ++ tail) = [List.replicate n a ++ tail] := by
  induction n with
  | zero => simpa using ht
  | succ n ih =>
    rw [List.replicate_succ, List.cons_append, split_lines]
    simp only [ha, if_false, ih]

theorem fgets_of_ne_nil (stream : List Char) (h : stream ≠ []) :
    fgets MAX_LOG_LEN stream = some (fgets_aux 2047 stream) := by
  cases stream with
  | nil => exact absurd rfl h
  | cons c cs => rfl

theorem chunks_long_log : chunks (long_log.length + 1) long_log =
    [List.replicate 2047 'a', "ERROR\n".toList] := by
  have hlen : long_log.length = 2052 + 1 := by
    simp only [long_log, List.length_append, List.length_replicate]
    rfl
  have hne : long_log ≠ [] := by
    intro h
    rw [h] at hlen
    exact absurd hlen (by decide)
  have haux : fgets_aux 2047 long_log = (List.replicate 2047 'a', "ERROR\n".toList) :=
    fgets_aux_replicate 2047 'a' _ (by decide)
  have htail : chunks (2052 + 1) "ERROR\n".toList = ["ERROR\n".toList] := by
    simp [chunks, fgets, fgets_aux, chunks_nil, NL]
  rw [chunks, fgets_of_ne_nil _ hne, haux]
  simp only []
  rw [hlen, htail]

/-- A text is not found in a buffer of letters none of which it contains. -/
theorem hit_replicate (pat : CStr) (x a : Char) (n : Nat) (hx : x ∈ pat) (hne : x ≠ a) :
    hit pat (cstr (List.replicate n a)) = 0 := by
  have hno : ¬ pat <:+: cstr (List.replicate n a) := by
    intro hin
    have h1 : x ∈ cstr (List.replicate n a) := hin.subset hx
    have h2 : x ∈ List.replicate n a := (List.takeWhile_sublist _).subset h1
    exact hne (List.eq_of_mem_replicate h2)
  rw [hit, if_neg hno]

theorem count_lines_replicate (pat : CStr) (x a : Char) (n : Nat) (hx : x ∈ pat)
    (hne : x ≠ a) (bufs : List (List Char)) :
    count_lines pat (List.replicate n a :: bufs) = count_lines pat bufs := by
  rw [count_lines_cons, hit_replicate pat x a n hx hne, Nat.zero_add]

/-! ### Entries the filter rejects -/

theorem scan_entry_rejected (fs : FS) (stale : CStr → Nat) (dir n : CStr) (s : State)
    (hfail : has_valid_extension n = 0 ∨
      ∃ m, fs.stat (snprintf_path dir n) = some m ∧ S_ISREG m = false) :
    scan_entry fs stale dir n s = some s := by
  unfold scan_entry
  split
  · rfl
  · have he : eligible fs (stale (snprintf_path dir n)) (snprintf_path dir n) n = false := by
      unfold eligible
      rcases hfail with h | ⟨m, hm, hreg⟩
      · simp [h]
      · simp [is_regular_file, stat_unchecked, hm, hreg]
    simp [he]

theorem scan_entries_append (fs : FS) (stale : CStr → Nat) (dir : CStr)
    (pre post : List CStr) (s : State) :
    scan_entries fs stale dir (pre ++ post) s =
      (scan_entries fs stale dir pre s).bind (scan_entries fs stale dir post) := by
  induction pre generalizing s with
  | nil => simp [scan_entries]
  | cons n ns ih =>
    simp only [List.cons_append, scan_entries]
    cases scan_entry fs stale dir n s with
    | none => simp
    | some s1 => simp [ih]

/-! ### The extension table -/

theorem has_valid_extension_from_eq_one_iff (filename : CStr) (exts : List CStr) :
    has_valid_extension_from filename exts = 1 ↔ ∃ ext ∈ exts, ext <:+: filename := by
  induction exts with
  | nil => simp [has_valid_extension_from]
  | cons x xs ih =>
    unfold has_valid_extension_from
    by_cases h : (strstr filename x).isSome = true
    · simp only [h, if_true, true_iff]
      exact ⟨x, by simp, (strstr_isSome_iff _ _).mp h⟩
    · have hx : ¬ x <:+: filename := fun hh => h ((strstr_isSome_iff _ _).mpr hh)
      simp only [h, if_false, ih, List.mem_cons, exists_eq_or_imp, hx, false_or,
        Bool.false_eq_true]

theorem has_valid_extension_from_zero_or_one (filename : CStr) (exts : List CStr) :
    has_valid_extension_from filename exts = 0 ∨ has_valid_extension_from filename exts = 1 := by
  induction exts with
  | nil => left; rfl
  | cons x xs ih =>
    unfold has_valid_extension_from
    split
    · right; rfl
    · exact ih

/-- Function `has_valid_extension` returns 1 exactly when one of the five texts
occurs somewhere in the name, and 0 otherwise. -/
theorem has_valid_extension_spec (filename : CStr) :
    (has_valid_extension filename = 1 ↔ ∃ ext ∈ valid_extensions, ext <:+: filename) ∧
    (has_valid_extension filename = 0 ↔ ¬ ∃ ext ∈ valid_extensions, ext <:+: filename) := by
  have htake : valid_extensions.take MAX_EXTENSIONS = valid_extensions := by decide
  have h1 := has_valid_extension_from_eq_one_iff filename valid_extensions
  have h01 := has_valid_extension_from_zero_or_one filename valid_extensions
  unfold has_valid_extension
  rw [htake]
  refine ⟨h1, ?_⟩
  rw [← h1]
  rcases h01 with h | h <;> simp [h]

/-- When `stat` succeeds the filter accepts an entry exactly when the path is a
regular file and one of the five texts occurs in the name. -/
theorem eligible_of_stat (fs : FS) (stale : Nat) (path name : CStr) (m : Nat)
    (hstat : fs.stat path = some m) :
    eligible fs stale path name = true ↔
      S_ISREG m = true ∧ ∃ ext ∈ valid_extensions, ext <:+: name := by
  have h1 := (has_valid_extension_spec name).1
  have h0 := (has_valid_extension_spec name).2
  unfold eligible is_regular_file stat_unchecked
  rw [hstat]
  by_cases hr : S_ISREG m = true
  · by_cases hx : ∃ ext ∈ valid_extensions, ext <:+: name
    · simp [hr, hx, h1.mpr hx]
    · simp [hr, hx, h0.mpr hx]
  · simp [hr]

/-! ### Claims -/

/-- C1: per-line effect of the Line Matcher (body of the `fgets` loop of `read_logs`).
For every path, every buffer and every value of the counters, processing the line
(the C string the buffer holds) adds one to `total_logs`, adds one to the counter of
each of ERROR, WARN, CRITICAL that occurs in the line as a substring and leaves the
other counters as they were, and appends to the sink (and to standard output) one
record `Error found in <path>: <line>` per pattern that occurs.  So a line with two
of the texts bumps both counters and gives two records, a line with none changes no
counter and gives no record, and `ERRORIGNORE` counts for ERROR. -/
theorem C1_line_matcher (path : CStr) (buf : List Char) (e w c t : Int)
    (rest : List LogPattern) (out err log : List CStr) :
    (process_line path buf ⟨registry e w c rest, 3, t, out, err, log⟩ =
      ⟨registry (if ERROR <:+: cstr buf then e + 1 else e)
          (if WARN <:+: cstr buf then w + 1 else w)
          (if CRITICAL <:+: cstr buf then c + 1 else c) rest,
        3, t + 1,
        out ++ List.replicate (hits (cstr buf)) (fmt_error_found path (cstr buf)),
        err,
        log ++ List.replicate (hits (cstr buf)) (fmt_error_found path (cstr buf))⟩) ∧
    hits (cstr buf) =
      (if ERROR <:+: cstr buf then 1 else 0) + (if WARN <:+: cstr buf then 1 else 0) +
        (if CRITICAL <:+: cstr buf then 1 else 0) ∧
    process_line "a.log".toList "ERRORIGNORE\n".toList ⟨registry 0 0 0 [], 3, 0, [], [], []⟩ =
      ⟨registry 1 0 0 [], 3, 1, ["Error found in a.log: ERRORIGNORE\n".toList], [],
        ["Error found in a.log: ERRORIGNORE\n".toList]⟩ ∧
    process_line "a.log".toList "WARN: ERROR 5\n".toList ⟨registry 0 0 0 [], 3, 0, [], [], []⟩ =
      ⟨registry 1 1 0 [], 3, 1,
        ["Error found in a.log: WARN: ERROR 5\n".toList,
          "Error found in a.log: WARN: ERROR 5\n".toList], [],
        ["Error found in a.log: WARN: ERROR 5\n".toList,
          "Error found in a.log: WARN: ERROR 5\n".toList]⟩ ∧
    process_line "a.log".toList "INFO start\n".toList ⟨registry 4 5 6 [], 3, 7, [], [], []⟩ =
      ⟨registry 4 5 6 [], 3, 8, [], [], []⟩ := by
  refine ⟨?_, rfl, by decide, by decide, by decide⟩
  rw [process_line_registry]
  by_cases h1 : ERROR <:+: cstr buf <;>
  by_cases h2 : WARN <:+: cstr buf <;>
  by_cases h3 : CRITICAL <:+: cstr buf <;>
  simp [records, hit, h1, h2, h3]

/-- C2: whole-file batch scan.  From the state `initialize_patterns` produces at
start-up, for every file that opens and whose lines (line feed included) each fit the
line buffer, `read_logs` returns with `total_logs` equal to the number of lines of the
file, each pattern counter equal to the number of lines whose C string contains the
pattern text, and as many sink records as the three counters sum to.  For a text
without NUL bytes the C string of a line is the line itself. -/
theorem C2_read_logs_whole_file (fs : FS) (path : CStr) (content : List Char)
    (hopen : fs.fopen_r path = some content)
    (hfit : ∀ l ∈ split_lines content, l.length ≤ MAX_LOG_LEN - 1) :
    ∃ s, read_logs fs path (initialize_patterns startup) = some s ∧
      s.total_logs = (split_lines content).length ∧
      s.patterns = registry (count_lines ERROR (split_lines content))
        (count_lines WARN (split_lines content))
        (count_lines CRITICAL (split_lines content)) unused ∧
      s.pattern_count = 3 ∧
      s.error_log.length = count_lines ERROR (split_lines content) +
        count_lines WARN (split_lines content) + count_lines CRITICAL (split_lines content) ∧
      (NUL ∉ content → ∀ pat, count_lines pat (split_lines content) =
        (split_lines content).countP (fun l => decide (pat <:+: l))) := by
  have hchunks : chunks (content.length + 1) content = split_lines content :=
    chunks_eq_split_lines _ _ (Nat.lt_succ_self _) hfit
  have hrun : read_logs fs path (initialize_patterns startup) =
      some ⟨registry (0 + count_lines ERROR (split_lines content))
          (0 + count_lines WARN (split_lines content))
          (0 + count_lines CRITICAL (split_lines content)) unused,
        3, 0 + (split_lines content).length,
        [] ++ (split_lines content).flatMap (records path), [],
        [] ++ (split_lines content).flatMap (records path)⟩ := by
    rw [read_logs, hopen]
    simp only []
    rw [fgets_loop_eq _ _ _ _ (Nat.lt_succ_self _), hchunks, initialize_patterns_startup,
      run_process_registry]
  refine ⟨_, hrun, by simp, by simp, rfl,
    by simp only [List.nil_append]; exact flatMap_records_length _ _, ?_⟩
  intro hn pat
  exact count_lines_text pat content hn

/-- Witness for C2: the file with lines `INFO start`, `ERROR disk full`,
`WARN low memory` gives `total_logs = 3`, ERROR 1, WARN 1, CRITICAL 0 and two sink
records, read directly and through a scan of the directory holding it. -/
theorem C2_read_logs_whole_file_witness :
    (exFS.fopen_r "app.log".toList = some app_log ∧
      (∀ l ∈ split_lines app_log, l.length ≤ MAX_LOG_LEN - 1) ∧ NUL ∉ app_log) ∧
    (∃ s, read_logs exFS "app.log".toList (initialize_patterns startup) = some s ∧
      s.total_logs = 3 ∧ s.patterns = registry 1 1 0 unused ∧ s.error_log.length = 2 ∧
      ∀ pat, count_lines pat (split_lines app_log) =
        (split_lines app_log).countP (fun l => decide (pat <:+: l))) ∧
    split_lines app_log =
      ["INFO start\n".toList, "ERROR disk full\n".toList, "WARN low memory\n".toList] ∧
    (scan_directory_and_process_logs exFS (fun _ => 0) "logs".toList
        (initialize_patterns startup)).map
      (fun s => (s.total_logs, s.patterns, s.error_log)) =
      some (3, registry 1 1 0 unused,
        ["Error found in logs/app.log: ERROR disk full\n".toList,
          "Error found in logs/app.log: WARN low memory\n".toList]) := by
  refine ⟨⟨rfl, by decide, by decide⟩, ?_, by decide, by decide⟩
  obtain ⟨s, h1, h2, h3, _, h5, h6⟩ :=
    C2_read_logs_whole_file exFS "app.log".toList app_log rfl (by decide)
  refine ⟨s, h1, ?_, ?_, ?_, h6 (by decide)⟩
  · rw [h2]; decide
  · rw [h3]; decide
  · rw [h5]; decide

/-- C10: statistics report.  For the registry with any counters, `display_statistics`
appends to standard output, after a leading line break, the lines
`===== Log Statistics =====`, `Total logs processed: <total_logs>`,
`ERROR: <n> occurrences`, `WARN: <n> occurrences`, `CRITICAL: <n> occurrences` and
`==========================`, each ended by a line feed, and changes nothing else;
called twice it prints the same block twice.  In every state it leaves `total_logs`,
the pattern array, `pattern_count` and the sink as they were. -/
theorem C10_display_statistics (e w c t : Int) (rest : List LogPattern)
    (out err log : List CStr) :
    display_statistics ⟨registry e w c rest, 3, t, out, err, log⟩ =
      ⟨registry e w c rest, 3, t, out ++ statistics_block e w c t, err, log⟩ ∧
    display_statistics (display_statistics ⟨registry e w c rest, 3, t, out, err, log⟩) =
      ⟨registry e w c rest, 3, t, out ++ statistics_block e w c t ++ statistics_block e w c t,
        err, log⟩ ∧
    (∀ s : State, (display_statistics s).total_logs = s.total_logs ∧
      (display_statistics s).patterns = s.patterns ∧
      (display_statistics s).pattern_count = s.pattern_count ∧
      (display_statistics s).error_log = s.error_log ∧
      (display_statistics s).err = s.err) ∧
    (display_statistics ⟨registry 1 1 0 unused, 3, 3, [], [], app_log_records⟩).out =
      ["\n===== Log Statistics =====\n".toList, "Total logs processed: 3\n".toList,
        "ERROR: 1 occurrences\n".toList, "WARN: 1 occurrences\n".toList,
        "CRITICAL: 0 occurrences\n".toList, "==========================\n".toList] := by
  have h1 : display_statistics ⟨registry e w c rest, 3, t, out, err, log⟩ =
      ⟨registry e w c rest, 3, t, out ++ statistics_block e w c t, err, log⟩ := by
    have hr : List.range 3 = [0, 1, 2] := rfl
    simp only [display_statistics, hr, List.map, fmt_occurrences, registry, statistics_block]
    simp [ERROR, WARN, CRITICAL, NL]
  refine ⟨h1, ?_, fun s => ⟨rfl, rfl, rfl, rfl, rfl⟩, by decide⟩
  rw [h1]
  have hr : List.range 3 = [0, 1, 2] := rfl
  simp only [display_statistics, hr, List.map, fmt_occurrences, registry, statistics_block]
  simp [ERROR, WARN, CRITICAL, NL]

/-- C9: counter invariant.  In every state reachable from `initialize_patterns` by
calls of `read_logs`, `scan_directory_and_process_logs` and `monitor_log_file` on
arbitrary files, the pattern array still starts with ERROR, WARN, CRITICAL,
`pattern_count` is 3, each counter lies between zero and `total_logs`, and the three
counters sum to at most `3 * total_logs` (counters being unbounded integers). -/
theorem C9_counter_invariant (s : State) (h : Reachable s) :
    ∃ e w c rest, s.patterns = registry e w c rest ∧ s.pattern_count = 3 ∧
      0 ≤ e ∧ e ≤ s.total_logs ∧ 0 ≤ w ∧ w ≤ s.total_logs ∧ 0 ≤ c ∧ c ≤ s.total_logs ∧
      e + w + c ≤ 3 * s.total_logs := by
  obtain ⟨e, w, c, rest, hp, hc, he0, he, hw0, hw, hc0, hcc⟩ := bounded_of_reachable s h
  exact ⟨e, w, c, rest, hp, hc, he0, he, hw0, hw, hc0, hcc, by omega⟩

/-- Witness for C9: the state after `read_logs` has scanned `app.log` is reachable
and satisfies the invariant. -/
theorem C9_counter_invariant_witness :
    Reachable ⟨registry 1 1 0 unused, 3, 3, app_log_records, [], app_log_records⟩ ∧
    ∃ e w c rest,
      (⟨registry 1 1 0 unused, 3, 3, app_log_records, [], app_log_records⟩ : State).patterns =
        registry e w c rest ∧
      (⟨registry 1 1 0 unused, 3, 3, app_log_records, [], app_log_records⟩ : State).pattern_count
        = 3 ∧
      0 ≤ e ∧ e ≤ 3 ∧ 0 ≤ w ∧ w ≤ 3 ∧ 0 ≤ c ∧ c ≤ 3 ∧ e + w + c ≤ 3 * 3 := by
  have hr : Reachable ⟨registry 1 1 0 unused, 3, 3, app_log_records, [], app_log_records⟩ :=
    Reachable.step_read_logs exFS "app.log".toList _ _ Reachable.init (by decide)
  exact ⟨hr, C9_counter_invariant _ hr⟩

/-- C3, counterexample: the watch is on the file `logs/app.log` itself, so the
"modified" event the program receives carries an empty name.  The file has three
lines, one with ERROR and one with WARN, yet after the event is handled from the
start-up registry `total_logs` is still 0, every counter is still 0 and the sink is
empty (the claim wants 3, 1 and 1): the state is exactly as before. -/
theorem C3_modified_event_counterexample :
    exFS.fopen_r "logs/app.log".toList = some app_log ∧
    (split_lines app_log).length = 3 ∧
    count_lines ERROR (split_lines app_log) = 1 ∧
    count_lines WARN (split_lines app_log) = 1 ∧
    handle_event exFS 3 "logs".toList ⟨IN_MODIFY, []⟩ (initialize_patterns startup) =
      some ⟨registry 0 0 0 unused, 3, 0, [], [], []⟩ := by
  refine ⟨rfl, by decide, by decide, by decide, by decide⟩

/-- C3, amended: handling an event in the event loop of `monitor_directory`, and in
particular a "modified" event, which calls `monitor_log_file`, always returns and
runs no line through the Line Matcher: `total_logs`, the pattern array with every
counter, `pattern_count` and the sink are exactly as before, whatever the
environment, the event and the state; a second event leaves them unchanged again, so
the counters do not accumulate. -/
theorem C3_modified_event_frame (fs : FS) (fd : Int) (dir : CStr) (ev : Event)
    (s : State) :
    ∃ t, handle_event fs fd dir ev s = some t ∧
      t.total_logs = s.total_logs ∧ t.patterns = s.patterns ∧
      t.pattern_count = s.pattern_count ∧ t.error_log = s.error_log ∧
      ∃ u, handle_event fs fd dir ev t = some u ∧
        u.total_logs = s.total_logs ∧ u.patterns = s.patterns ∧
        u.pattern_count = s.pattern_count ∧ u.error_log = s.error_log := by
  unfold handle_event
  by_cases hm : ev.mask &&& IN_MODIFY ≠ 0
  · simp only [if_pos hm]
    exact ⟨_, monitor_log_file_eq fs fd _ s, rfl, rfl, rfl, rfl,
      _, monitor_log_file_eq fs fd _ _, rfl, rfl, rfl, rfl⟩
  · simp only [if_neg hm]
    exact ⟨s, rfl, rfl, rfl, rfl, rfl, s, rfl, rfl, rfl, rfl, rfl⟩

/-- C6, counterexample: on the file `app.log` (three lines, one ERROR, one WARN)
`main` in monitor mode ends with `total_logs = 0`, all counters 0 and an empty sink,
while `main` in batch mode ends with `total_logs = 3`, ERROR 1, WARN 1 and two sink
records. -/
theorem C6_single_file_counterexample :
    (main exFS 0 (fun _ => 0) [] ["prog".toList, "--monitor".toList, "app.log".toList]).map
        (fun r => (r.1, r.2.total_logs, r.2.patterns, r.2.error_log)) =
      some (0, 0, registry 0 0 0 unused, []) ∧
    (main exFS 0 (fun _ => 0) [] ["prog".toList, "app.log".toList]).map
        (fun r => (r.1, r.2.total_logs, r.2.patterns, r.2.error_log)) =
      some (0, 3, registry 1 1 0 unused, app_log_records) := by
  refine ⟨by decide, by decide⟩

/-- C6, amended: for every target and every starting state both single-file paths
of `main` make exactly one pass over the file and return, but the monitor path
(`monitor_log_file(0, path)`) leaves `total_logs`, the pattern array and the sink
untouched, whereas the batch path (`read_logs(path)`) adds one to `total_logs` per
buffer read; the two end with the same `total_logs` exactly when the file cannot be
opened or is empty. -/
theorem C6_single_file_monitor (fs : FS) (path : CStr) (s : State) :
    ∃ sm sb, monitor_log_file fs 0 path s = some sm ∧ read_logs fs path s = some sb ∧
      sm.total_logs = s.total_logs ∧ sm.patterns = s.patterns ∧
      sm.pattern_count = s.pattern_count ∧ sm.error_log = s.error_log ∧
      (sb.total_logs = sm.total_logs ↔
        (fs.fopen_r path = none ∨ fs.fopen_r path = some [])) := by
  refine ⟨_, _, monitor_log_file_eq fs 0 path s, read_logs_eq fs path s, rfl, rfl, rfl, rfl, ?_⟩
  cases h : fs.fopen_r path with
  | none => simp
  | some content =>
    simp only [run_process_total_logs, Option.some.injEq, false_or, reduceCtorEq]
    have := chunks_eq_nil_iff content
    rw [← this, ← List.length_eq_zero]
    constructor
    · intro h1; omega
    · intro h1; omega

/-- C7, counterexample: the file `long.log` holds one source line, 2047 letters `a`
followed by `ERROR` and a line feed.  Function `read_logs` leaves `total_logs = 2`,
having counted that one line twice, and the ERROR counter at 1 with one sink record:
the part of the line beyond its first 2047 characters was read as a line of its own
and matched, not discarded. -/
theorem C7_long_line_counterexample :
    split_lines long_log = [long_log] ∧ MAX_LOG_LEN - 1 < long_log.length ∧
    read_logs longFS "long.log".toList (initialize_patterns startup) =
      some ⟨registry 1 0 0 unused, 3, 2, ["Error found in long.log: ERROR\n".toList], [],
        ["Error found in long.log: ERROR\n".toList]⟩ := by
  have hlen : long_log.length = 2053 := by
    simp only [long_log, List.length_append, List.length_replicate]
    rfl
  refine ⟨?_, by rw [hlen]; decide, ?_⟩
  · rw [long_log]
    exact split_lines_replicate 2047 'a' _ (by decide) (by decide)
  · have hf : longFS.fopen_r "long.log".toList = some long_log := rfl
    have hE : count_lines ERROR [List.replicate 2047 'a', "ERROR\n".toList] = 1 := by
      rw [count_lines_replicate ERROR 'E' 'a' 2047 (by decide) (by decide)]
      decide
    have hW : count_lines WARN [List.replicate 2047 'a', "ERROR\n".toList] = 0 := by
      rw [count_lines_replicate WARN 'W' 'a' 2047 (by decide) (by decide)]
      decide
    have hC : count_lines CRITICAL [List.replicate 2047 'a', "ERROR\n".toList] = 0 := by
      rw [count_lines_replicate CRITICAL 'C' 'a' 2047 (by decide) (by decide)]
      decide
    have hrec : (List.replicate 2047 'a' :: ["ERROR\n".toList]).flatMap
        (records "long.log".toList) = ["Error found in long.log: ERROR\n".toList] := by
      have h0 : records "long.log".toList (List.replicate 2047 'a') = [] := by
        rw [records, hits, hit_replicate ERROR 'E' 'a' 2047 (by decide) (by decide),
          hit_replicate WARN 'W' 'a' 2047 (by decide) (by decide),
          hit_replicate CRITICAL 'C' 'a' 2047 (by decide) (by decide)]
        rfl
      rw [List.flatMap_cons, h0]
      decide
    rw [read_logs_eq, hf]
    simp only []
    rw [chunks_long_log, initialize_patterns_startup, run_process_registry, hE, hW, hC, hrec]
    rfl

/-- C7, amended: `read_logs` reads a file in buffers of at most `MAX_LOG_LEN - 1`
= 2047 characters which together make up the file: a buffer ends after a line feed,
when it is full, or at end of file, so a longer source line is split into several
buffers and nothing is discarded.  `total_logs` grows by one per buffer and each
pattern counter by one per buffer whose C string contains the text, hence by at most
one per buffer; when every line fits, the buffers are the lines. -/
theorem C7_read_logs_buffers (fs : FS) (path : CStr) (content : List Char)
    (hopen : fs.fopen_r path = some content) (e w c t : Int) (rest : List LogPattern)
    (out err log : List CStr) :
    ∃ bufs : List (List Char),
      bufs.flatten = content ∧
      (∀ b ∈ bufs, 0 < b.length ∧ b.length ≤ MAX_LOG_LEN - 1 ∧ NL ∉ b.dropLast) ∧
      (∀ b ∈ bufs.dropLast, b.length = MAX_LOG_LEN - 1 ∨ b.getLast? = some NL) ∧
      read_logs fs path ⟨registry e w c rest, 3, t, out, err, log⟩ =
        some ⟨registry (e + count_lines ERROR bufs) (w + count_lines WARN bufs)
            (c + count_lines CRITICAL bufs) rest,
          3, t + bufs.length, out ++ bufs.flatMap (records path), err,
          log ++ bufs.flatMap (records path)⟩ ∧
      (count_lines ERROR bufs ≤ bufs.length ∧ count_lines WARN bufs ≤ bufs.length ∧
        count_lines CRITICAL bufs ≤ bufs.length) ∧
      ((∀ l ∈ split_lines content, l.length ≤ MAX_LOG_LEN - 1) → bufs = split_lines content) := by
  refine ⟨chunks (content.length + 1) content, chunks_flatten _ _ (Nat.lt_succ_self _),
    chunks_bounds _ _, chunks_full _ _, ?_, ?_, ?_⟩
  · rw [read_logs_eq, hopen]
    simp only []
    rw [run_process_registry]
  · exact ⟨List.countP_le_length _, List.countP_le_length _, List.countP_le_length _⟩
  · intro hfit
    exact chunks_eq_split_lines _ _ (Nat.lt_succ_self _) hfit

/-- Witness for C7, amended: the file `app.log`, whose lines fit, is read line by
line; the file `long.log`, whose only line does not fit, is read in two buffers. -/
theorem C7_read_logs_buffers_witness :
    (exFS.fopen_r "app.log".toList = some app_log ∧
      (∀ l ∈ split_lines app_log, l.length ≤ MAX_LOG_LEN - 1)) ∧
    (∃ bufs : List (List Char), bufs = split_lines app_log ∧
      read_logs exFS "app.log".toList ⟨registry 0 0 0 [], 3, 0, [], [], []⟩ =
        some ⟨registry (0 + count_lines ERROR bufs) (0 + count_lines WARN bufs)
            (0 + count_lines CRITICAL bufs) [],
          3, 0 + bufs.length, [] ++ bufs.flatMap (records "app.log".toList), [],
          [] ++ bufs.flatMap (records "app.log".toList)⟩) ∧
    longFS.fopen_r "long.log".toList = some long_log ∧
    (∃ bufs : List (List Char), bufs.flatten = long_log ∧
      (∀ b ∈ bufs, 0 < b.length ∧ b.length ≤ MAX_LOG_LEN - 1 ∧ NL ∉ b.dropLast) ∧
      read_logs longFS "long.log".toList ⟨registry 0 0 0 [], 3, 0, [], [], []⟩ =
        some ⟨registry (0 + count_lines ERROR bufs) (0 + count_lines WARN bufs)
            (0 + count_lines CRITICAL bufs) [],
          3, 0 + bufs.length, [] ++ bufs.flatMap (records "long.log".toList), [],
          [] ++ bufs.flatMap (records "long.log".toList)⟩) := by
  have hfit : ∀ l ∈ split_lines app_log, l.length ≤ MAX_LOG_LEN - 1 := by decide
  obtain ⟨bufs, _, _, _, hrun, _, hlines⟩ :=
    C7_read_logs_buffers exFS "app.log".toList app_log rfl 0 0 0 0 [] [] [] []
  obtain ⟨bufs2, hflat, hb, _, hrun2, _, _⟩ :=
    C7_read_logs_buffers longFS "long.log".toList long_log rfl 0 0 0 0 [] [] [] []
  exact ⟨⟨rfl, hfit⟩, ⟨bufs, hlines hfit, hrun⟩, rfl, ⟨bufs2, hflat, hb, hrun2⟩⟩

/-- C5, counterexample: `image.png` is a regular file whose name holds none of the
five texts, so the filter rejects it; passed to `main` as the target of a batch scan
it is opened and read all the same: `total_logs` ends at 1, ERROR at 1, and the sink
holds one record. -/
theorem C5_top_level_counterexample :
    has_valid_extension "image.png".toList = 0 ∧
    eligible pngFS 0 "image.png".toList "image.png".toList = false ∧
    (main pngFS 0 (fun _ => 0) [] ["prog".toList, "image.png".toList]).map
        (fun r => (r.1, r.2.total_logs, r.2.patterns, r.2.error_log)) =
      some (0, 1, registry 1 0 0 unused,
        ["Error found in image.png: ERROR in chunk IDAT\n".toList]) := by
  refine ⟨by decide, by decide, by decide⟩

/-- C5, amended: in a batch scan of a directory, an entry whose name contains none of
the allowed texts, or for which `stat` succeeds and reports something other than a
regular file, is never passed to `read_logs`: the loop body returns the state
exactly as it was (counters, sink and output), and the scan of a listing with the
entry in it equals the scan of the listing without it.  (The top-level target of
`main` is not filtered.) -/
theorem C5_rejected_entry_skipped (fs : FS) (stale : CStr → Nat) (dir n : CStr)
    (hfail : has_valid_extension n = 0 ∨
      ∃ m, fs.stat (snprintf_path dir n) = some m ∧ S_ISREG m = false) :
    (∀ s, scan_entry fs stale dir n s = some s) ∧
    (∀ pre post s, scan_entries fs stale dir (pre ++ n :: post) s =
      scan_entries fs stale dir (pre ++ post) s) := by
  refine ⟨fun s => scan_entry_rejected fs stale dir n s hfail, ?_⟩
  intro pre post s
  rw [scan_entries_append, scan_entries_append]
  cases scan_entries fs stale dir pre s with
  | none => rfl
  | some s1 =>
    simp only [Option.some_bind]
    rw [scan_entries, scan_entry_rejected fs stale dir n s1 hfail]

/-- Witness for C5, amended: in the directory `media` the entry `image.png` fails on
its name and the entry `sub.log` is a directory; the scan of `media` returns the
start state unchanged. -/
theorem C5_rejected_entry_skipped_witness :
    (has_valid_extension "image.png".toList = 0 ∧
      ∃ m, pngFS.stat (snprintf_path "media".toList "sub.log".toList) = some m ∧
        S_ISREG m = false) ∧
    ((∀ s, scan_entry pngFS (fun _ => 0) "media".toList "image.png".toList s = some s) ∧
      (∀ pre post s,
        scan_entries pngFS (fun _ => 0) "media".toList (pre ++ "image.png".toList :: post) s =
          scan_entries pngFS (fun _ => 0) "media".toList (pre ++ post) s)) ∧
    ((∀ s, scan_entry pngFS (fun _ => 0o100644) "media".toList "sub.log".toList s = some s) ∧
      (∀ pre post s,
        scan_entries pngFS (fun _ => 0o100644) "media".toList
            (pre ++ "sub.log".toList :: post) s =
          scan_entries pngFS (fun _ => 0o100644) "media".toList (pre ++ post) s)) ∧
    scan_directory_and_process_logs pngFS (fun _ => 0) "media".toList
        (initialize_patterns startup) = some (initialize_patterns startup) :=
  ⟨⟨by decide, 0o040755, by decide, by decide⟩,
    C5_rejected_entry_skipped pngFS (fun _ => 0) "media".toList "image.png".toList
      (Or.inl (by decide)),
    C5_rejected_entry_skipped pngFS (fun _ => 0o100644) "media".toList "sub.log".toList
      (Or.inr ⟨0o040755, by decide, by decide⟩),
    by decide⟩

/-- C8, failing input: `stat` fails for `logs/ghost.log` while the buffer
`path_stat` still holds the mode of a regular file (0100644).  Function
`is_regular_file` then returns 1, not 0; the batch scan of `logs` passes the entry to
`read_logs` (the output shows `Processing log file`, and `fopen` reports the failure),
and `monitor_directory` passes it to `inotify_add_watch`, granted in this environment. -/
theorem C8_stat_failure_accepted :
    ghostFS.stat "logs/ghost.log".toList = none ∧
    is_regular_file ghostFS 0o100644 "logs/ghost.log".toList = 1 ∧
    scan_directory_and_process_logs ghostFS (fun _ => 0o100644) "logs".toList
        (initialize_patterns startup) =
      some ⟨registry 0 0 0 unused, 3, 0, ["Processing log file: logs/ghost.log\n".toList],
        ["Failed to open log file".toList], []⟩ ∧
    monitor_directory ghostFS (fun _ => 0o100644) [] "logs".toList
        (initialize_patterns startup) =
      some ⟨registry 0 0 0 unused, 3, 0, ["Monitoring file: logs/ghost.log\n".toList],
        ["Failed to read inotify events".toList], []⟩ := by
  refine ⟨by decide, by decide, by decide, by decide⟩

/-- C4, failing input: for the directory entry `ghost.log`, whose path is not a
regular file (`stat` fails for it), the filter expression
`is_regular_file(path) && has_valid_extension(name)` is true when the buffer
`path_stat` holds a stale regular-file mode.  The name test itself is as claimed:
`log.txtbak` passes and `image.png` does not. -/
theorem C4_filter_accepts_missing_file :
    ghostFS.stat (snprintf_path "logs".toList "ghost.log".toList) = none ∧
    eligible ghostFS 0o100644 (snprintf_path "logs".toList "ghost.log".toList)
      "ghost.log".toList = true ∧
    has_valid_extension "log.txtbak".toList = 1 ∧
    has_valid_extension "image.png".toList = 0 := by
  refine ⟨by decide, by decide, by decide, by decide⟩
